import Mathlib

/-!
Verification development for the map-memoir frontend.

Two coordination components are embedded as explicit state machines:

* the Google Maps script loader (src/unnamed/part_000, useGoogleMaps),
  modelled by LoaderState and stepL: the module-level singletons
  isLoadingGoogleMaps / loadPromise, the script tags in the document,
  the per-flight callback and timeout closures, and the settlement of
  each load promise;

* the audio playback controller (src/frontend/src/hooks/useAudioPlayer.js),
  modelled by AudioState and stepA: the React state booleans, the refs
  (audioContextRef, sourceRef, gainNodeRef), the in-flight fetch+decode
  continuations of playAudio, and the set of started buffer sources.

The browser event loop is single threaded; every synchronous run of a
handler is one step, and the awaited completions (fetch+decode of one
playAudio call, the script load callback, onerror, the load timeout,
onended of a source) are delivered as separate steps in any order.

Also embedded: StoryService.incrementViews (src/frontend/src/services/
StoryService.js) and checkServerHealth (src/frontend/src/contexts/
AuthContext.jsx).
-/

namespace MapMemoir

/-! ## Google Maps script loader (useGoogleMaps, src/unnamed/part_000) -/

/-- Outcome of one load flight: the shared promise resolves (Ready) or
rejects (Failed). -/
inductive LoadOutcome
  | ready
  | failed
deriving DecidableEq, Repr

/-- The page-lifetime state touched by useGoogleMaps: the module-level
singletons, the DOM script tags pointing at the maps host, the armed
global callbacks and timeout timers (one of each per flight, identified
by the flight id), the settlement of every promise ever created, the
readiness predicate over window.google, and a counter of script
requests actually issued. -/
structure LoaderState where
  isLoadingGoogleMaps : Bool
  loadPromise : Option Nat
  scriptTags : List Nat
  cbArmed : List Nat
  timers : List Nat
  outcomes : List (Nat × LoadOutcome)
  fullyLoaded : Bool
  requests : Nat
  nextId : Nat
deriving DecidableEq, Repr

/-- Fresh page: nothing loaded, no flight. -/
def initL : LoaderState :=
  { isLoadingGoogleMaps := false
    loadPromise := none
    scriptTags := []
    cbArmed := []
    timers := []
    outcomes := []
    fullyLoaded := false
    requests := 0
    nextId := 0 }

/-- The guard in the effect body: bail out when the key is absent
(falsy) or equals the known placeholder. -/
def keyInvalid : Option String → Bool
  | none => true
  | some k => k = "" || k = "your_google_maps_api_key_here"

/-- Settling a promise: JS promises settle at most once, a second
resolve or reject is a no-op. -/
def settle (s : LoaderState) (p : Nat) (o : LoadOutcome) : LoaderState :=
  if (s.outcomes.lookup p).isSome then s
  else { s with outcomes := (p, o) :: s.outcomes }

/-- What a call to the hook's effect does, as observed by the caller. -/
inductive CallAction
  | invalidKey
  | alreadyLoaded
  | attach (p : Nat)
  | startFlight (p : Nat)
deriving DecidableEq, Repr

/-- The branch the synchronous effect body takes, mirroring the guard
order of the source: invalid key, already fully loaded, a load already
in flight (attach to loadPromise), otherwise start a new flight. -/
def callActionL (s : LoaderState) (key : Option String) : CallAction :=
  if keyInvalid key then .invalidKey
  else if s.fullyLoaded then .alreadyLoaded
  else if s.isLoadingGoogleMaps && s.loadPromise.isSome then
    .attach (s.loadPromise.getD 0)
  else .startFlight s.nextId

/-- The synchronous state change of one effect run.  Starting a flight
removes every existing maps script tag, injects one fresh tag, arms the
named callback and the 10 second timeout, sets the singleton flag and
promise, and issues one script request. -/
def callStepL (s : LoaderState) (key : Option String) : LoaderState :=
  if keyInvalid key then s
  else if s.fullyLoaded then s
  else if s.isLoadingGoogleMaps && s.loadPromise.isSome then s
  else
    { s with
      isLoadingGoogleMaps := true
      loadPromise := some s.nextId
      scriptTags := [s.nextId]
      cbArmed := s.nextId :: s.cbArmed
      timers := s.nextId :: s.timers
      requests := s.requests + 1
      nextId := s.nextId + 1 }

/-- Asynchronous deliveries of the loader.  call is one run of the
effect body; sdkAttach is the vendor script executing and attaching the
full window.google surface; cbFire is the named callback firing and the
checkReady poll succeeding (the poll resolves only once fullyLoaded
holds, so the two are one delivery); errFire is script.onerror;
timeoutFire is the 10 second setTimeout of a flight. -/
inductive LEvent
  | call (key : Option String)
  | sdkAttach
  | cbFire (p : Nat)
  | errFire (p : Nat)
  | timeoutFire (p : Nat)
deriving DecidableEq, Repr

/-- One step of the loader machine.  Undeliverable events (no such armed
callback or timer, no script tag to execute) leave the state unchanged. -/
def stepL (s : LoaderState) : LEvent → LoaderState
  | .call key => callStepL s key
  | .sdkAttach =>
      if s.scriptTags.isEmpty then s else { s with fullyLoaded := true }
  | .cbFire p =>
      if s.cbArmed.contains p && s.fullyLoaded then
        settle { s with cbArmed := s.cbArmed.erase p
                        isLoadingGoogleMaps := false } p .ready
      else s
  | .errFire p =>
      if s.cbArmed.contains p then
        settle { s with cbArmed := s.cbArmed.erase p
                        isLoadingGoogleMaps := false } p .failed
      else s
  | .timeoutFire p =>
      if s.timers.contains p then
        let s1 := { s with timers := s.timers.erase p }
        if s1.isLoadingGoogleMaps then
          settle { s1 with isLoadingGoogleMaps := false } p .failed
        else s1
      else s

/-- Run a sequence of deliveries. -/
def runL (s : LoaderState) (tr : List LEvent) : LoaderState :=
  tr.foldl stepL s

/-- A state of the loader reachable from a fresh page. -/
def ReachL (s : LoaderState) : Prop :=
  ∃ tr, runL initL tr = s

/-- Loader invariant: at most one maps script tag is in the document at
a time, and while the singleton flag is set the shared promise exists. -/
def InvL (s : LoaderState) : Prop :=
  s.scriptTags.length ≤ 1
  ∧ (s.isLoadingGoogleMaps = true → s.loadPromise.isSome = true)

/-! ## Audio playback controller (useAudioPlayer.js) -/

/-- The full state of one useAudioPlayer instance together with the
sources it has started.

isPlaying / isLoading / isMuted / currentAudio are the React state;
sourceRef / gainNode / hasContext are the refs (the gain node carries
its gain value, 0 or 1); capturedMuted is the isMuted value captured by
the current playAudio closure — the useCallback dependency array is
[isPlaying, stopAudio], so the closure is recreated (and recaptures
isMuted) exactly when isPlaying changes; pending holds one entry per
playAudio call suspended in its fetch+decode awaits, keyed by a fresh
id and carrying the isMuted value its closure captured; started lists
the buffer sources started and not yet stopped or ended; toasts counts
user-visible error notifications. -/
structure AudioState where
  isPlaying : Bool
  isLoading : Bool
  isMuted : Bool
  currentAudio : Option Nat
  sourceRef : Option Nat
  gainNode : Option Nat
  hasContext : Bool
  capturedMuted : Bool
  pending : List (Nat × Bool)
  started : List Nat
  toasts : Nat
  nextFid : Nat
  nextSid : Nat
deriving DecidableEq, Repr

/-- Controller state on mount. -/
def initA : AudioState :=
  { isPlaying := false
    isLoading := false
    isMuted := false
    currentAudio := none
    sourceRef := none
    gainNode := none
    hasContext := false
    capturedMuted := false
    pending := []
    started := []
    toasts := 0
    nextFid := 0
    nextSid := 0 }

/-- stopAudio: if sourceRef holds a source, stop it (the try/catch makes
this total even when the engine already auto-halted, hence erase) and
null the ref; then set isPlaying false and currentAudio null.  It does
not touch isLoading and shows no notification. -/
def stopAudio (s : AudioState) : AudioState :=
  let s1 :=
    match s.sourceRef with
    | some sid => { s with started := s.started.erase sid, sourceRef := none }
    | none => s
  { s1 with isPlaying := false, currentAudio := none }

/-- React re-render bookkeeping: when an event changed isPlaying, the
playAudio closure is recreated at the next render and captures the
current isMuted; otherwise the memoized closure (and its captured
isMuted) is kept. -/
def recapture (old new : AudioState) : AudioState :=
  if old.isPlaying == new.isPlaying then new
  else { new with capturedMuted := new.isMuted }

/-- Deliveries of the audio controller.  playCall / stopCall / muteCall
/ unmuteCall are the synchronous handler bodies (for playCall, its
synchronous prefix up to the first await); fetchOk / fetchFail resume
the suspended playAudio continuation identified by the fetch id, the
whole tail after the awaits being one synchronous block; endedFire is
the onended callback of a started source reaching its natural end. -/
inductive AEvent
  | playCall
  | stopCall
  | muteCall
  | unmuteCall
  | fetchOk (fid : Nat)
  | fetchFail (fid : Nat)
  | endedFire (sid : Nat)
deriving DecidableEq, Repr

/-- One step of the audio machine, mirroring the source:

* playCall: if isPlaying, stopAudio and return (no fetch); otherwise
  setIsLoading(true) and start the fetch — the continuation keeps the
  closure's captured isMuted;
* fetchOk: create the context if needed, create or reuse the gain node
  and set its gain from the captured isMuted, install the new source in
  sourceRef, set currentAudio and isPlaying, start the source, and in
  the finally clear isLoading.  Nothing checks whether the session was
  stopped or superseded while suspended;
* fetchFail: the catch shows one error toast and clears isPlaying, the
  finally clears isLoading; sourceRef is not touched;
* stopCall: stopAudio;
* muteCall / unmuteCall: only when a gain node exists, set its gain and
  the isMuted flag;
* endedFire: onended clears isPlaying, currentAudio and sourceRef. -/
def stepA (s : AudioState) : AEvent → AudioState
  | .playCall =>
      if s.isPlaying then recapture s (stopAudio s)
      else
        { s with
          isLoading := true
          pending := (s.nextFid, s.capturedMuted) :: s.pending
          nextFid := s.nextFid + 1 }
  | .stopCall => recapture s (stopAudio s)
  | .muteCall =>
      if s.gainNode.isSome then { s with gainNode := some 0, isMuted := true }
      else s
  | .unmuteCall =>
      if s.gainNode.isSome then { s with gainNode := some 1, isMuted := false }
      else s
  | .fetchOk fid =>
      match s.pending.lookup fid with
      | none => s
      | some m =>
          recapture s
            { s with
              pending := s.pending.eraseP (fun q => q.1 == fid)
              hasContext := true
              gainNode := some (if m then 0 else 1)
              sourceRef := some s.nextSid
              currentAudio := some fid
              isPlaying := true
              started := s.nextSid :: s.started
              nextSid := s.nextSid + 1
              isLoading := false }
  | .fetchFail fid =>
      if (s.pending.lookup fid).isSome then
        recapture s
          { s with
            pending := s.pending.eraseP (fun q => q.1 == fid)
            toasts := s.toasts + 1
            isPlaying := false
            isLoading := false }
      else s
  | .endedFire sid =>
      if s.started.contains sid then
        recapture s
          { s with
            started := s.started.erase sid
            isPlaying := false
            currentAudio := none
            sourceRef := none }
      else s

/-- Run a sequence of deliveries on the controller. -/
def runA (s : AudioState) (tr : List AEvent) : AudioState :=
  tr.foldl stepA s

/-- The abstract status of the spec's PlaybackSession. -/
inductive AStatus
  | idle
  | loading
  | playing
deriving DecidableEq, Repr

/-- Status reported by the hook: Playing when isPlaying, else Loading
when isLoading, else Idle. -/
def statusA (s : AudioState) : AStatus :=
  if s.isPlaying then .playing else if s.isLoading then .loading else .idle

/-- Traces in which no play request is issued while a load is in flight
(this is the guard the source does not have: playAudio only checks
isPlaying). -/
def guardOK (s : AudioState) : AEvent → Bool
  | .playCall => !s.isLoading
  | _ => true

def guardedB : AudioState → List AEvent → Bool
  | _, [] => true
  | s, e :: tr => guardOK s e && guardedB (stepA s e) tr

/-- Controller invariant (holds along guarded traces): at most one
fetch or started source over all, sourceRef holds a source exactly when
isPlaying and then it is the single started one, and isLoading tracks
the presence of an in-flight fetch. -/
def InvA (s : AudioState) : Prop :=
  s.pending.length + s.started.length ≤ 1
  ∧ (match s.sourceRef with
     | some sid => s.started = [sid] ∧ s.isPlaying = true
     | none => s.started = [] ∧ s.isPlaying = false)
  ∧ s.isLoading = !s.pending.isEmpty

/-! ## StoryService.incrementViews -/

/-- A stored story document: the views field may be absent (the source
reads it as views || 0). -/
structure StoryDoc where
  views : Option Nat
deriving DecidableEq, Repr

/-- The try body of incrementViews: getDoc may throw (modelled by the
Except input), the document may not exist, updateDoc may throw; on
success the stored views become current + 1. -/
def incrementViewsBody (gd : Except String (Option StoryDoc))
    (updateFails : Bool) : Except String (Option Nat) :=
  match gd with
  | .error e => .error e
  | .ok none => .ok none
  | .ok (some d) =>
      if updateFails then .error "update failed"
      else .ok (some (d.views.getD 0 + 1))

/-- incrementViews with its catch: any failure is logged only — no
rethrow, no toast.  The result is the views value written (none when
nothing was written) paired with the number of toasts shown. -/
def incrementViews (gd : Except String (Option StoryDoc))
    (updateFails : Bool) : Option Nat × Nat :=
  match incrementViewsBody gd updateFails with
  | .ok w => (w, 0)
  | .error _ => (none, 0)

/-! ## checkServerHealth -/

/-- A fetch response, carrying its HTTP status. -/
structure HttpResponse where
  status : Nat
deriving DecidableEq, Repr

/-- response.ok: status in the 2xx range. -/
def respOk (r : HttpResponse) : Bool :=
  decide (200 ≤ r.status) && decide (r.status ≤ 299)

/-- checkServerHealth: return response.ok when the fetch resolves, and
false from the catch when it throws; it never rethrows. -/
def checkServerHealth (fr : Except String HttpResponse) :
    Except String Bool :=
  match fr with
  | .ok r => .ok (respOk r)
  | .error _ => .ok false

/-! ## Helper lemmas -/

@[simp]
theorem recapture_isPlaying (a b : AudioState) :
    (recapture a b).isPlaying = b.isPlaying := by
  unfold recapture; split <;> rfl

@[simp]
theorem recapture_isLoading (a b : AudioState) :
    (recapture a b).isLoading = b.isLoading := by
  unfold recapture; split <;> rfl

@[simp]
theorem recapture_isMuted (a b : AudioState) :
    (recapture a b).isMuted = b.isMuted := by
  unfold recapture; split <;> rfl

@[simp]
theorem recapture_currentAudio (a b : AudioState) :
    (recapture a b).currentAudio = b.currentAudio := by
  unfold recapture; split <;> rfl

@[simp]
theorem recapture_sourceRef (a b : AudioState) :
    (recapture a b).sourceRef = b.sourceRef := by
  unfold recapture; split <;> rfl

@[simp]
theorem recapture_gainNode (a b : AudioState) :
    (recapture a b).gainNode = b.gainNode := by
  unfold recapture; split <;> rfl

@[simp]
theorem recapture_pending (a b : AudioState) :
    (recapture a b).pending = b.pending := by
  unfold recapture; split <;> rfl

@[simp]
theorem recapture_started (a b : AudioState) :
    (recapture a b).started = b.started := by
  unfold recapture; split <;> rfl

@[simp]
theorem recapture_toasts (a b : AudioState) :
    (recapture a b).toasts = b.toasts := by
  unfold recapture; split <;> rfl

@[simp]
theorem recapture_nextFid (a b : AudioState) :
    (recapture a b).nextFid = b.nextFid := by
  unfold recapture; split <;> rfl

@[simp]
theorem recapture_nextSid (a b : AudioState) :
    (recapture a b).nextSid = b.nextSid := by
  unfold recapture; split <;> rfl

theorem invA_recapture (a b : AudioState) : InvA (recapture a b) ↔ InvA b := by
  unfold recapture; split
  · exact Iff.rfl
  · exact Iff.rfl

@[simp]
theorem stopAudio_isPlaying (s : AudioState) : (stopAudio s).isPlaying = false := by
  rcases hr : s.sourceRef with _ | sid <;> simp [stopAudio, hr]

@[simp]
theorem stopAudio_currentAudio (s : AudioState) :
    (stopAudio s).currentAudio = none := by
  rcases hr : s.sourceRef with _ | sid <;> simp [stopAudio, hr]

@[simp]
theorem stopAudio_sourceRef (s : AudioState) : (stopAudio s).sourceRef = none := by
  rcases hr : s.sourceRef with _ | sid <;> simp [stopAudio, hr]

@[simp]
theorem stopAudio_isLoading (s : AudioState) :
    (stopAudio s).isLoading = s.isLoading := by
  rcases hr : s.sourceRef with _ | sid <;> simp [stopAudio, hr]

@[simp]
theorem stopAudio_isMuted (s : AudioState) : (stopAudio s).isMuted = s.isMuted := by
  rcases hr : s.sourceRef with _ | sid <;> simp [stopAudio, hr]

@[simp]
theorem stopAudio_gainNode (s : AudioState) :
    (stopAudio s).gainNode = s.gainNode := by
  rcases hr : s.sourceRef with _ | sid <;> simp [stopAudio, hr]

@[simp]
theorem stopAudio_pending (s : AudioState) : (stopAudio s).pending = s.pending := by
  rcases hr : s.sourceRef with _ | sid <;> simp [stopAudio, hr]

@[simp]
theorem stopAudio_toasts (s : AudioState) : (stopAudio s).toasts = s.toasts := by
  rcases hr : s.sourceRef with _ | sid <;> simp [stopAudio, hr]

@[simp]
theorem stopAudio_nextFid (s : AudioState) : (stopAudio s).nextFid = s.nextFid := by
  rcases hr : s.sourceRef with _ | sid <;> simp [stopAudio, hr]

@[simp]
theorem stopAudio_nextSid (s : AudioState) : (stopAudio s).nextSid = s.nextSid := by
  rcases hr : s.sourceRef with _ | sid <;> simp [stopAudio, hr]

theorem stopAudio_started_sublist (s : AudioState) :
    List.Sublist (stopAudio s).started s.started := by
  unfold stopAudio
  cases s.sourceRef with
  | none => exact List.Sublist.refl _
  | some sid => exact List.erase_sublist sid s.started

theorem lookup_single {fid : Nat} {m : Bool} :
    ∀ {l : List (Nat × Bool)}, l.length ≤ 1 → l.lookup fid = some m →
      l = [(fid, m)] := by
  intro l hlen hlk
  cases l with
  | nil => simp [List.lookup] at hlk
  | cons q qs =>
    cases qs with
    | nil =>
      obtain ⟨k, b⟩ := q
      by_cases hk : fid = k
      · subst hk
        simp [List.lookup] at hlk
        simp [hlk]
      · have hbeq : (fid == k) = false := by simp [hk]
        simp [List.lookup, hbeq] at hlk
    | cons q2 qs2 =>
      simp at hlen

theorem invA_init : InvA initA := by
  refine ⟨?_, ?_, ?_⟩ <;> simp [initA, InvA]

theorem invA_stopAudio (s : AudioState) (h : InvA s) : InvA (stopAudio s) := by
  obtain ⟨h1, h2, h3⟩ := h
  rcases hr : s.sourceRef with _ | sid <;> rw [hr] at h2
  · refine ⟨?_, ?_, ?_⟩
    · simpa [stopAudio, hr] using h1
    · simp [stopAudio, hr, h2.1]
    · simpa [stopAudio, hr] using h3
  · obtain ⟨hst, _⟩ := h2
    have hpend : s.pending = [] := by
      rw [hst] at h1
      have hh : s.pending.length = 0 := by simpa using h1
      exact List.length_eq_zero.mp hh
    refine ⟨?_, ?_, ?_⟩
    · simp [stopAudio, hr, hst, hpend]
    · simp [stopAudio, hr, hst]
    · simpa [stopAudio, hr] using h3

theorem invA_step (s : AudioState) (e : AEvent) (h : InvA s)
    (hg : e = AEvent.playCall → s.isLoading = false) : InvA (stepA s e) := by
  obtain ⟨h1, h2, h3⟩ := h
  cases e with
  | playCall =>
    have hld : s.isLoading = false := hg rfl
    have hpend : s.pending = [] := by
      cases hq : s.pending with
      | nil => rfl
      | cons q qs => rw [hld, hq] at h3; simp at h3
    by_cases hp : s.isPlaying = true
    · rw [show stepA s .playCall = recapture s (stopAudio s) by simp [stepA, hp]]
      exact (invA_recapture _ _).mpr (invA_stopAudio s ⟨h1, h2, h3⟩)
    · have hp2 : s.isPlaying = false := by
        cases hq : s.isPlaying
        · rfl
        · exact absurd hq hp
      rcases hr : s.sourceRef with _ | sid <;> rw [hr] at h2
      · obtain ⟨hst, _⟩ := h2
        rw [show stepA s .playCall =
              { s with isLoading := true
                       pending := (s.nextFid, s.capturedMuted) :: s.pending
                       nextFid := s.nextFid + 1 } by simp [stepA, hp2]]
        refine ⟨?_, ?_, ?_⟩
        · simp [hpend, hst]
        · simp [hr, hst, hp2]
        · simp [hpend]
      · rw [h2.2] at hp2; simp at hp2
  | stopCall =>
    exact (invA_recapture _ _).mpr (invA_stopAudio s ⟨h1, h2, h3⟩)
  | muteCall =>
    rw [stepA]
    split
    · exact ⟨h1, h2, h3⟩
    · exact ⟨h1, h2, h3⟩
  | unmuteCall =>
    rw [stepA]
    split
    · exact ⟨h1, h2, h3⟩
    · exact ⟨h1, h2, h3⟩
  | fetchOk fid =>
    rcases hlk : s.pending.lookup fid with _ | m
    · simp only [stepA, hlk]; exact ⟨h1, h2, h3⟩
    · have hpend : s.pending = [(fid, m)] :=
        lookup_single (by omega) hlk
      have hst : s.started = [] := by
        rw [hpend] at h1
        have hh : s.started.length = 0 := by simpa using h1
        exact List.length_eq_zero.mp hh
      have hr : s.sourceRef = none := by
        rcases hq : s.sourceRef with _ | sid
        · rfl
        · rw [hq] at h2; rw [hst] at h2; simp at h2
      simp only [stepA, hlk]
      rw [invA_recapture]
      refine ⟨?_, ?_, ?_⟩
      · simp [hpend, hst]
      · simp [hst]
      · simp [hpend]
  | fetchFail fid =>
    rw [stepA]
    split
    · rename_i hsome
      rcases hlk : s.pending.lookup fid with _ | m
      · rw [hlk] at hsome; simp at hsome
      · have hpend : s.pending = [(fid, m)] :=
          lookup_single (by omega) hlk
        have hst : s.started = [] := by
          rw [hpend] at h1
          have hh : s.started.length = 0 := by simpa using h1
          exact List.length_eq_zero.mp hh
        have hr : s.sourceRef = none := by
          rcases hq : s.sourceRef with _ | sid
          · rfl
          · rw [hq] at h2; rw [hst] at h2; simp at h2
        rw [invA_recapture]
        refine ⟨?_, ?_, ?_⟩
        · simp [hpend, hst]
        · simp [hr, hst]
        · simp [hpend]
    · exact ⟨h1, h2, h3⟩
  | endedFire sid =>
    rw [stepA]
    split
    · rename_i hc
      rcases hr : s.sourceRef with _ | sid0 <;> rw [hr] at h2
      · rw [h2.1] at hc; simp at hc
      · obtain ⟨hst, _⟩ := h2
        have hpend : s.pending = [] := by
          rw [hst] at h1
          have hh : s.pending.length = 0 := by simpa using h1
          exact List.length_eq_zero.mp hh
        have hsid : sid0 = sid := by
          have hq : sid = sid0 := by rw [hst] at hc; simpa using hc
          exact hq.symm
        rw [invA_recapture]
        refine ⟨?_, ?_, ?_⟩
        · simp [hst, hsid, hpend]
        · simp [hst, hsid]
        · simpa using h3
    · exact ⟨h1, h2, h3⟩

theorem invA_run : ∀ (tr : List AEvent) (s : AudioState),
    InvA s → guardedB s tr = true → InvA (runA s tr) := by
  intro tr
  induction tr with
  | nil => intro s h _; simpa [runA] using h
  | cons e tr ih =>
    intro s h hg
    rw [guardedB, Bool.and_eq_true] at hg
    show InvA (runA (stepA s e) tr)
    refine ih _ (invA_step s _ h ?_) hg.2
    intro he
    subst he
    have hok := hg.1
    rw [guardOK] at hok
    simpa using hok

theorem settle_outcomes_mono (s : LoaderState) (p2 : Nat) (o2 : LoadOutcome)
    (p : Nat) (o : LoadOutcome) (h : s.outcomes.lookup p = some o) :
    (settle s p2 o2).outcomes.lookup p = some o := by
  unfold settle
  split
  · exact h
  · rename_i hns
    by_cases hpp : p = p2
    · subst hpp; rw [h] at hns; simp at hns
    · have hbeq : (p == p2) = false := by simp [hpp]
      simp only [List.lookup, hbeq]
      exact h

theorem invL_settle (X : LoaderState) (p : Nat) (o : LoadOutcome) :
    InvL (settle X p o) ↔ InvL X := by
  unfold settle; split
  · exact Iff.rfl
  · exact Iff.rfl

theorem invL_init : InvL initL := by
  refine ⟨?_, ?_⟩ <;> simp [initL, InvL]

theorem invL_step (s : LoaderState) (e : LEvent) (h : InvL s) :
    InvL (stepL s e) := by
  obtain ⟨h1, h2⟩ := h
  cases e with
  | call key =>
    rw [stepL, callStepL]
    split
    · exact ⟨h1, h2⟩
    split
    · exact ⟨h1, h2⟩
    split
    · exact ⟨h1, h2⟩
    · exact ⟨by simp, by simp⟩
  | sdkAttach =>
    rw [stepL]
    split
    · exact ⟨h1, h2⟩
    · exact ⟨h1, h2⟩
  | cbFire p =>
    rw [stepL]
    split
    · rw [invL_settle]
      exact ⟨h1, by intro hh; cases hh⟩
    · exact ⟨h1, h2⟩
  | errFire p =>
    rw [stepL]
    split
    · rw [invL_settle]
      exact ⟨h1, by intro hh; cases hh⟩
    · exact ⟨h1, h2⟩
  | timeoutFire p =>
    rw [stepL]
    split
    · dsimp only
      split
      · rw [invL_settle]
        exact ⟨h1, by intro hh; cases hh⟩
      · exact ⟨h1, h2⟩
    · exact ⟨h1, h2⟩

theorem invL_run : ∀ (tr : List LEvent) (s : LoaderState),
    InvL s → InvL (runL s tr) := by
  intro tr
  induction tr with
  | nil => intro s h; simpa [runL] using h
  | cons e tr ih =>
    intro s h
    exact ih (stepL s e) (invL_step s e h)

theorem invL_reach (s : LoaderState) (h : ReachL s) : InvL s := by
  obtain ⟨tr, rfl⟩ := h
  exact invL_run tr initL invL_init

theorem stepL_outcomes_mono (s : LoaderState) (e : LEvent) (p : Nat)
    (o : LoadOutcome) (h : s.outcomes.lookup p = some o) :
    (stepL s e).outcomes.lookup p = some o := by
  cases e with
  | call key =>
    rw [stepL, callStepL]
    split
    · exact h
    split
    · exact h
    split
    · exact h
    · exact h
  | sdkAttach =>
    rw [stepL]
    split
    · exact h
    · exact h
  | cbFire p2 =>
    rw [stepL]
    split
    · exact settle_outcomes_mono _ _ _ _ _ h
    · exact h
  | errFire p2 =>
    rw [stepL]
    split
    · exact settle_outcomes_mono _ _ _ _ _ h
    · exact h
  | timeoutFire p2 =>
    rw [stepL]
    split
    · dsimp only
      split
      · exact settle_outcomes_mono _ _ _ _ _ h
      · exact h
    · exact h

/-- Fixpoint of stopAudio: a state with no held source, not playing and
no current audio is unchanged by a further stop call. -/
theorem stopCall_fixpoint (X : AudioState) (h1 : X.sourceRef = none)
    (h2 : X.isPlaying = false) (h3 : X.currentAudio = none) :
    stepA X .stopCall = X := by
  obtain ⟨p, l, m, ca, sr, gn, hc, cm, pd, st, t, nf, ns⟩ := X
  simp only at h1 h2 h3
  subst h1; subst h2; subst h3
  simp [stepA, stopAudio, recapture]

/-! ## Claims -/

/-- C1, counterexample: with a valid credential the mapping script can be
requested twice within one page lifetime — after a flight fails
(script.onerror resets isLoadingGoogleMaps), the next call starts a
fresh flight and issues a second script request, so the script is not
requested at most once. -/
theorem C1_counterexample :
    (runL initL [LEvent.call (some "k"), LEvent.errFire 0,
        LEvent.call (some "k")]).requests = 2
    ∧ ¬ (runL initL [LEvent.call (some "k"), LEvent.errFire 0,
        LEvent.call (some "k")]).requests ≤ 1 := by
  constructor
  · decide
  · decide

/-- C1 amended: in every reachable loader state, at most one mapping
script tag is present; a call with a valid credential arriving while a
load is in flight changes nothing (no new tag, no new request) and
attaches to the shared pending promise; and a settled promise keeps its
outcome, so all callers of one flight observe the same outcome.  A
second request can only happen after a failed flight reset the
singleton flag. -/
theorem C1_amended (s : LoaderState) (hs : ReachL s) :
    s.scriptTags.length ≤ 1
    ∧ (∀ key, keyInvalid key = false → s.fullyLoaded = false →
        s.isLoadingGoogleMaps = true →
        stepL s (.call key) = s
        ∧ ∃ p, s.loadPromise = some p ∧ callActionL s key = .attach p)
    ∧ (∀ e p o, s.outcomes.lookup p = some o →
        (stepL s e).outcomes.lookup p = some o) := by
  have hinv := invL_reach s hs
  refine ⟨hinv.1, ?_, ?_⟩
  · intro key hk hf hl
    have hps : s.loadPromise.isSome = true := hinv.2 hl
    rcases hq : s.loadPromise with _ | p
    · rw [hq] at hps; simp at hps
    · constructor
      · simp [stepL, callStepL, hk, hf, hl, hq]
      · exact ⟨p, rfl, by simp [callActionL, hk, hf, hl, hq]⟩
  · intro e p o h
    exact stepL_outcomes_mono s e p o h

/-- C1 amended, witness: the state after one call with a valid key is
reachable, in flight, and a second call attaches without changing it. -/
theorem C1_amended_witness :
    (runL initL [LEvent.call (some "k")]).scriptTags.length ≤ 1
    ∧ stepL (runL initL [LEvent.call (some "k")]) (.call (some "k"))
        = runL initL [LEvent.call (some "k")] := by
  have h := C1_amended (runL initL [LEvent.call (some "k")])
    ⟨[LEvent.call (some "k")], rfl⟩
  exact ⟨h.1, (h.2.1 (some "k") (by decide) (by decide) (by decide)).1⟩

/-- C2, counterexample: two active output handles do coexist at a
reachable state — playAudio only checks isPlaying, so a play call made
during Loading starts a second fetch, and when both resolve the second
source is installed without stopping the first: two started,
un-stopped sources exist at once. -/
theorem C2_counterexample :
    (runA initA [AEvent.playCall, AEvent.playCall, AEvent.fetchOk 0,
        AEvent.fetchOk 1]).started.length = 2 := by
  decide

/-- C2 amended: the toggle part holds — in any state with
status Playing, a play call is exactly a stop call: it issues no fetch
(pending and the fetch counter unchanged), leaves status not playing,
and starts no new source (the started list only shrinks).  The
no-two-outputs invariant holds only for traces in which play is never
called during Loading: along such traces at most one source is ever
active. -/
theorem C2_amended :
    (∀ s : AudioState, s.isPlaying = true →
        stepA s .playCall = stepA s .stopCall
        ∧ (stepA s .playCall).pending = s.pending
        ∧ (stepA s .playCall).nextFid = s.nextFid
        ∧ (stepA s .playCall).isPlaying = false
        ∧ List.Sublist (stepA s .playCall).started s.started)
    ∧ (∀ tr : List AEvent, guardedB initA tr = true →
        (runA initA tr).started.length ≤ 1) := by
  constructor
  · intro s hp
    have he : stepA s .playCall = recapture s (stopAudio s) := by
      simp [stepA, hp]
    have he2 : stepA s .stopCall = recapture s (stopAudio s) := rfl
    rw [he, he2]
    refine ⟨rfl, by simp, by simp, by simp, ?_⟩
    rw [recapture_started]
    exact stopAudio_started_sublist s
  · intro tr hg
    have hinv := invA_run tr initA invA_init hg
    have h1 := hinv.1
    omega

/-- C2 amended, witness: a play call in a concrete playing state equals
a stop call, and a concrete guarded trace keeps at most one active
source. -/
theorem C2_amended_witness :
    stepA (runA initA [AEvent.playCall, AEvent.fetchOk 0]) .playCall
      = stepA (runA initA [AEvent.playCall, AEvent.fetchOk 0]) .stopCall
    ∧ (runA initA [AEvent.playCall, AEvent.fetchOk 0,
        AEvent.stopCall]).started.length ≤ 1 :=
  ⟨(C2_amended.1 (runA initA [AEvent.playCall, AEvent.fetchOk 0])
      (by decide)).1,
   C2_amended.2 [AEvent.playCall, AEvent.fetchOk 0, AEvent.stopCall]
      (by decide)⟩

/-- C3: the late-arriving fetch result of a play call is installed with
no supersession check, so a stop issued during Loading is resurrected:
after play, stop, and the fetch resolving, the session was stopped
(isPlaying false) yet ends up Playing with an active source — contrary
to the required guard. -/
theorem C3_resurrection_eval :
    (runA initA [AEvent.playCall, AEvent.stopCall]).isPlaying = false
    ∧ statusA (runA initA [AEvent.playCall, AEvent.stopCall,
        AEvent.fetchOk 0]) = .playing
    ∧ (runA initA [AEvent.playCall, AEvent.stopCall,
        AEvent.fetchOk 0]).sourceRef = some 0 := by
  decide

/-- C4, counterexample: two fetches are in flight at once — playAudio
only returns early when isPlaying, so a second play call issued during
Loading starts a second concurrent fetch. -/
theorem C4_counterexample :
    (runA initA [AEvent.playCall, AEvent.playCall]).pending.length = 2 := by
  decide

/-- C4 amended: a play call made while Playing issues no fetch (the
toggle path returns before the fetch), and along traces in which play
is never called during Loading at most one fetch is in flight at any
time.  A play call made during Loading does start a second concurrent
fetch. -/
theorem C4_amended :
    (∀ s : AudioState, s.isPlaying = true →
        (stepA s .playCall).pending = s.pending
        ∧ (stepA s .playCall).nextFid = s.nextFid)
    ∧ (∀ tr : List AEvent, guardedB initA tr = true →
        (runA initA tr).pending.length ≤ 1) := by
  constructor
  · intro s hp
    have he : stepA s .playCall = recapture s (stopAudio s) := by
      simp [stepA, hp]
    rw [he]
    exact ⟨by simp, by simp⟩
  · intro tr hg
    have hinv := invA_run tr initA invA_init hg
    have h1 := hinv.1
    omega

/-- C4 amended, witness: in a concrete playing state a play call leaves
the pending fetches unchanged, and a concrete guarded trace has at most
one fetch in flight. -/
theorem C4_amended_witness :
    (stepA (runA initA [AEvent.playCall, AEvent.fetchOk 0]) .playCall).pending
      = (runA initA [AEvent.playCall, AEvent.fetchOk 0]).pending
    ∧ (runA initA [AEvent.playCall]).pending.length ≤ 1 :=
  ⟨(C4_amended.1 (runA initA [AEvent.playCall, AEvent.fetchOk 0])
      (by decide)).1,
   C4_amended.2 [AEvent.playCall] (by decide)⟩

/-- C5, counterexample: the iff between a non-null handle and Playing
fails at a reachable state — two overlapping play calls, the first
fetch succeeds (installing a source) and the second fails: the catch
clears only isPlaying, leaving a dangling non-null handle with status
not Playing. -/
theorem C5_counterexample :
    (runA initA [AEvent.playCall, AEvent.playCall, AEvent.fetchOk 0,
        AEvent.fetchFail 1]).sourceRef = some 0
    ∧ (runA initA [AEvent.playCall, AEvent.playCall, AEvent.fetchOk 0,
        AEvent.fetchFail 1]).isPlaying = false := by
  decide

/-- C5 amended: along traces in which play is never called during
Loading the invariant holds — the held source is non-null exactly when
isPlaying — and a fetch failure in an invariant state leaves status
Idle with no dangling handle.  When play is called during Loading, a
failing second fetch can leave a dangling handle (the catch does not
clear sourceRef). -/
theorem C5_amended :
    (∀ tr : List AEvent, guardedB initA tr = true →
        (runA initA tr).sourceRef.isSome = (runA initA tr).isPlaying)
    ∧ (∀ (s : AudioState) (fid : Nat) (m : Bool), InvA s →
        s.pending.lookup fid = some m →
        (stepA s (.fetchFail fid)).sourceRef = none
        ∧ statusA (stepA s (.fetchFail fid)) = .idle) := by
  constructor
  · intro tr hg
    have hinv := invA_run tr initA invA_init hg
    obtain ⟨-, h2, -⟩ := hinv
    rcases hr : (runA initA tr).sourceRef with _ | sid <;> rw [hr] at h2
    · simp [h2.2]
    · simp [h2.2]
  · intro s fid m hinv hlk
    obtain ⟨h1, h2, h3⟩ := hinv
    have hpend : s.pending = [(fid, m)] := lookup_single (by omega) hlk
    have hr : s.sourceRef = none := by
      rcases hq : s.sourceRef with _ | sid
      · rfl
      · rw [hq] at h2
        have hst : s.started = [] := by
          rw [hpend] at h1
          have hh : s.started.length = 0 := by simpa using h1
          exact List.length_eq_zero.mp hh
        rw [hst] at h2
        simp at h2
    constructor
    · simp [stepA, hlk, hr]
    · simp [stepA, hlk, statusA]

/-- C5 amended, witness: the invariant holds on a concrete guarded
trace, and a concrete fetch failure from a Loading state leaves Idle
with no handle. -/
theorem C5_amended_witness :
    (runA initA [AEvent.playCall, AEvent.fetchOk 0]).sourceRef.isSome
      = (runA initA [AEvent.playCall, AEvent.fetchOk 0]).isPlaying
    ∧ statusA (stepA (runA initA [AEvent.playCall]) (.fetchFail 0)) = .idle :=
  ⟨C5_amended.1 [AEvent.playCall, AEvent.fetchOk 0] (by decide),
   (C5_amended.2 (runA initA [AEvent.playCall]) 0 false
      (invA_run [AEvent.playCall] initA invA_init (by decide))
      (by decide)).2⟩

/-- C6, counterexample: muteAudio is a complete no-op when no gain node
exists — setIsMuted(true) sits inside the guard, so the reported mute
flag is NOT updated; consequently mute before any playback is not
sticky: the next successful play sets audible gain 1, not 0. -/
theorem C6_counterexample :
    (runA initA [AEvent.muteCall]).isMuted = false
    ∧ (runA initA [AEvent.muteCall]).gainNode = none
    ∧ (runA initA [AEvent.muteCall, AEvent.playCall,
        AEvent.fetchOk 0]).gainNode = some 1 := by
  decide

/-- C6 amended: when a gain node exists, mute sets gain 0 and the flag,
unmute sets gain 1 and clears the flag; when none exists both calls are
complete no-ops (the flag too is left unchanged).  A play whose
suspended continuation captured the muted flag sets audible gain 0 when
it installs — and the closure captures the flag only when isPlaying
changes, so mute is sticky across stop-then-play but a mute issued
while idle does not affect the gain set by the next play. -/
theorem C6_amended :
    (∀ (s : AudioState) (g : Nat), s.gainNode = some g →
        (stepA s .muteCall).gainNode = some 0
        ∧ (stepA s .muteCall).isMuted = true
        ∧ (stepA s .unmuteCall).gainNode = some 1
        ∧ (stepA s .unmuteCall).isMuted = false)
    ∧ (∀ s : AudioState, s.gainNode = none →
        stepA s .muteCall = s ∧ stepA s .unmuteCall = s)
    ∧ (∀ (s : AudioState) (fid : Nat), s.pending.lookup fid = some true →
        (stepA s (.fetchOk fid)).gainNode = some 0) := by
  refine ⟨?_, ?_, ?_⟩
  · intro s g hg
    refine ⟨?_, ?_, ?_, ?_⟩ <;> simp [stepA, hg]
  · intro s hg
    constructor <;> simp [stepA, hg]
  · intro s fid hlk
    simp [stepA, hlk]

/-- C6 amended, witness: mute on a concrete state with a gain node sets
gain 0; mute on the initial state (no gain node) is the identity; a
concrete pending play whose closure captured muted installs gain 0. -/
theorem C6_amended_witness :
    (stepA (runA initA [AEvent.playCall, AEvent.fetchOk 0])
        .muteCall).gainNode = some 0
    ∧ stepA initA .muteCall = initA
    ∧ (stepA { initA with pending := [(0, true)] }
        (.fetchOk 0)).gainNode = some 0 :=
  ⟨(C6_amended.1 (runA initA [AEvent.playCall, AEvent.fetchOk 0]) 1
      (by decide)).1,
   (C6_amended.2.1 initA (by decide)).1,
   C6_amended.2.2 { initA with pending := [(0, true)] } 0 (by decide)⟩

/-- C7: for an absent or placeholder credential the effect returns on
its first guard — the state is unchanged (no script tag injected, no
request issued, no flight started) and the observed action is the
invalid-key bail-out, so the hook's loaded signal stays false. -/
theorem C7_fails_fast (s : LoaderState) (key : Option String)
    (h : keyInvalid key = true) :
    stepL s (.call key) = s ∧ callActionL s key = .invalidKey := by
  constructor
  · simp [stepL, callStepL, h]
  · simp [callActionL, h]

/-- C7, witness: the placeholder key and the absent key both leave the
fresh page state untouched. -/
theorem C7_fails_fast_witness :
    stepL initL (.call (some "your_google_maps_api_key_here")) = initL
    ∧ stepL initL (.call none) = initL :=
  ⟨(C7_fails_fast initL (some "your_google_maps_api_key_here")
      (by decide)).1,
   (C7_fails_fast initL none (by decide)).1⟩

/-- C8, counterexample: a state with no active output handle need not
end in status Idle after stop — stopAudio does not touch isLoading, so
stop called mid-Loading (no handle held yet) leaves status Loading, and
the pending load can later resurrect playback. -/
theorem C8_counterexample :
    (runA initA [AEvent.playCall]).sourceRef = none
    ∧ statusA (runA initA [AEvent.playCall, AEvent.stopCall]) = .loading := by
  decide

/-- C8 amended: stop never raises a user-visible error (no toast, and
the try/catch tolerates an already-halted source), always clears the
playing flag, the held handle and the current audio, and is idempotent
— a second stop is a no-op.  It leaves status Idle in every state not
mid-Loading; a stop during Loading leaves status Loading because the
in-flight load is unaffected. -/
theorem C8_amended (s : AudioState) :
    (stepA s .stopCall).toasts = s.toasts
    ∧ (stepA s .stopCall).isPlaying = false
    ∧ (stepA s .stopCall).sourceRef = none
    ∧ (stepA s .stopCall).currentAudio = none
    ∧ stepA (stepA s .stopCall) .stopCall = stepA s .stopCall
    ∧ (s.isLoading = false → statusA (stepA s .stopCall) = .idle) := by
  have he : stepA s .stopCall = recapture s (stopAudio s) := rfl
  refine ⟨by simp [he], by simp [he], by simp [he], by simp [he], ?_, ?_⟩
  · exact stopCall_fixpoint (stepA s .stopCall) (by simp [he])
      (by simp [he]) (by simp [he])
  · intro hld
    simp [he, statusA, hld]

/-- C8 amended, witness: on the fresh controller, stop twice equals stop
once and the result is Idle. -/
theorem C8_amended_witness :
    stepA (stepA initA .stopCall) .stopCall = stepA initA .stopCall
    ∧ statusA (stepA initA .stopCall) = .idle :=
  ⟨(C8_amended initA).2.2.2.2.1, (C8_amended initA).2.2.2.2.2 rfl⟩

/-- C9: incrementViews swallows every failure of the underlying store
operations — whatever getDoc and updateDoc do, it shows no toast and
returns normally (the catch maps any error of the body to a normal
no-write result), and on the success path it writes current views plus
one. -/
theorem C9_swallows_errors (gd : Except String (Option StoryDoc)) (b : Bool) :
    (incrementViews gd b).2 = 0
    ∧ (∀ e, incrementViewsBody gd b = .error e →
        incrementViews gd b = (none, 0))
    ∧ (∀ d, gd = Except.ok (some d) → b = false →
        incrementViews gd b = (some (d.views.getD 0 + 1), 0)) := by
  refine ⟨?_, ?_, ?_⟩
  · unfold incrementViews
    split <;> rfl
  · intro e he
    unfold incrementViews
    rw [he]
  · rintro d rfl rfl
    rfl

/-- C9, witness: a throwing getDoc is swallowed with no toast, and a
successful path increments the stored views. -/
theorem C9_swallows_errors_witness :
    incrementViews (Except.error "network down") true = (none, 0)
    ∧ incrementViews (Except.ok (some ⟨some 5⟩)) false = (some 6, 0) :=
  ⟨(C9_swallows_errors (Except.error "network down") true).2.1
      "network down" rfl,
   (C9_swallows_errors (Except.ok (some ⟨some 5⟩)) false).2.2
      ⟨some 5⟩ rfl rfl⟩

/-- C10: checkServerHealth always resolves to a boolean — it never
rejects — and resolves true exactly when the fetch resolved with a 2xx
response; any non-ok status or thrown network error yields false. -/
theorem C10_health_total (fr : Except String HttpResponse) :
    (∃ b, checkServerHealth fr = .ok b)
    ∧ (checkServerHealth fr = .ok true ↔
        ∃ r, fr = .ok r ∧ respOk r = true) := by
  cases fr with
  | ok r =>
    refine ⟨⟨respOk r, rfl⟩, ?_⟩
    simp only [checkServerHealth]
    constructor
    · intro h
      have hh : respOk r = true := by simpa using h
      exact ⟨r, rfl, hh⟩
    · rintro ⟨r2, hr2, hok⟩
      have hr2e : r = r2 := by injection hr2
      subst hr2e
      simp [hok]
  | error e =>
    refine ⟨⟨false, rfl⟩, ?_⟩
    simp [checkServerHealth]

/-- C10, witness: a 204 response yields true, a thrown fetch yields
false. -/
theorem C10_health_total_witness :
    checkServerHealth (Except.ok ⟨204⟩) = .ok true
    ∧ checkServerHealth (Except.error "down") = .ok false := by
  refine ⟨(C10_health_total (Except.ok ⟨204⟩)).2.mpr ⟨⟨204⟩, rfl, by decide⟩, ?_⟩
  rfl

end MapMemoir
